import Mathlib

/-!
Verification of the interpreter-generation helpers of the nidaqmx code
generator (`src/codegen/utilities/interpreter_helpers.py`).

The Python module is embedded shallowly: parameter and function metadata
become Lean structures, each helper becomes an executable Lean function
that mirrors the Python control flow, and the `NotImplementedError`
raised during template selection becomes an `Except` error value.
Python dictionaries keyed by strings are modelled as association lists
with in-place update (last assignment wins, as in Python), and Python's
stable `sorted` is modelled by the stable insertion sort from Mathlib.
-/

/-! ## Name normalization (camel case to snake case)

`INTERPRETER_CAMEL_TO_SNAKE_CASE_REGEXES` in the source is the list
  `([^_\n])([A-Z][a-z]+)`, `([a-z])([A-Z])`, `([0-9])([^_0-9])`,
each applied with replacement `\1_\2` by `re.sub` (non-overlapping,
left to right), after which the result is lowercased.  Each pattern is
embedded as a structurally recursive scanner over the character list;
scanning resumes after the end of a match, exactly as `re.sub` does.
The fuel argument (initialized to the list length, an upper bound on
the number of scan steps) only makes the recursion structural so that
the functions evaluate by `decide`/`rfl`.

Modelled from the spec: the driver `camel_to_snake_case` (declared in
`codegen.utilities.helpers`, outside the given sources) applies the
regex list in order with replacement `\1_\2` and lowercases the result.
-/

def sub1Go : Nat → List Char → List Char
  | 0, l => l
  | _ + 1, [] => []
  | _ + 1, [c] => [c]
  | n + 1, c1 :: c2 :: rest =>
    if c1 != '_' && c1 != '\n' && c2.isUpper &&
        (match rest.head? with | some r => r.isLower | none => false) then
      c1 :: '_' :: c2 :: (rest.takeWhile Char.isLower ++ sub1Go n (rest.dropWhile Char.isLower))
    else
      c1 :: sub1Go n (c2 :: rest)

def sub2Go : Nat → List Char → List Char
  | 0, l => l
  | _ + 1, [] => []
  | _ + 1, [c] => [c]
  | n + 1, c1 :: c2 :: rest =>
    if c1.isLower && c2.isUpper then c1 :: '_' :: c2 :: sub2Go n rest
    else c1 :: sub2Go n (c2 :: rest)

def sub3Go : Nat → List Char → List Char
  | 0, l => l
  | _ + 1, [] => []
  | _ + 1, [c] => [c]
  | n + 1, c1 :: c2 :: rest =>
    if c1.isDigit && c2 != '_' && !c2.isDigit then c1 :: '_' :: c2 :: sub3Go n rest
    else c1 :: sub3Go n (c2 :: rest)

def sub1 (l : List Char) : List Char := sub1Go l.length l

def sub2 (l : List Char) : List Char := sub2Go l.length l

def sub3 (l : List Char) : List Char := sub3Go l.length l

def camel_to_snake_case (s : String) : String :=
  ⟨(sub3 (sub2 (sub1 s.data))).map Char.toLower⟩

/-- Does `pat` occur at the head of the second list? -/
def matchesAt : List Char → List Char → Bool
  | [], _ => true
  | _ :: _, [] => false
  | p :: ps, c :: cs => p == c && matchesAt ps cs

/-- Python's `str.replace`: replace non-overlapping occurrences of
`pat`, scanning left to right.  Structural in the fuel (initialized to
the list length, an upper bound on the number of scan steps) so that it
evaluates by `decide`/`rfl`; used with the non-empty pattern
`"_u_int"`. -/
def pyReplaceGo (pat rep : List Char) : Nat → List Char → List Char
  | 0, l => l
  | _ + 1, [] => []
  | n + 1, c :: rest =>
    if matchesAt pat (c :: rest) then rep ++ pyReplaceGo pat rep n ((c :: rest).drop pat.length)
    else c :: pyReplaceGo pat rep n rest

def pyReplace (s pat rep : String) : String :=
  ⟨pyReplaceGo pat.data rep.data s.data.length s.data⟩

/-! ## Data model

`Param` is the parameter model consumed by the helpers: the attributes
read by `interpreter_helpers.py` on a parameter object.  `RawParam` is
one entry of the raw `function_data["parameters"]` metadata list, where
the size descriptor may be absent.  Directions and size mechanisms are
strings, as in the source.
-/

structure SizeDescriptor where
  value : String
  mechanism : String
deriving DecidableEq

structure SizeParameter where
  name : String
  size : String
deriving DecidableEq

structure Param where
  parameter_name : String
  direction : String
  has_explicit_buffer_size : Bool
  size : SizeDescriptor
  repeating_argument : Bool
  is_list : Bool
  ctypes_data_type : String
  type : String
deriving DecidableEq

structure RawParam where
  name : String
  direction : String
  size : Option SizeDescriptor
  include_in_proto : Bool
  is_list : Bool
  repeating_argument : Bool
  ctypes_data_type : String
  type : String
deriving DecidableEq

structure FunctionData where
  parameters : List RawParam
deriving DecidableEq

/-- The function model, holding the attributes that
`interpreter_helpers.py` reads on a `Function` object. -/
structure Func where
  parameters : List Param
  base_parameters : List Param
  interpreter_parameters : List Param
  is_init_method : Bool
  stream_response : Bool
deriving DecidableEq

/-- Modelled from the spec: `Function.output_parameters` (declared in
`codegen.functions.function`, outside the given sources) is the list of
the function parameters whose direction is `out`. -/
def Func.output_parameters (f : Func) : List Param :=
  f.parameters.filter (fun p => p.direction == "out")

/-- The result of ingesting one catalog entry in
`get_interpreter_functions`: the normalized name used as sort key, the
original native name stored as `c_function_name`, and the retained raw
parameters. -/
structure InterpFunc where
  function_name : String
  c_function_name : String
  parameters : List RawParam
deriving DecidableEq

/-! ## Metadata ingestion and filtering -/

def INTERPRETER_IGNORED_FUNCTIONS : List String :=
  ["GetExtendedErrorInfo",
   "GetArmStartTrigTimestampVal",
   "GetFirstSampTimestampVal",
   "GetRefTrigTimestampVal",
   "GetStartTrigTimestampVal",
   "GetTimingAttributeExTimestamp",
   "GetTimingAttributeTimestamp",
   "GetTrigAttributeTimestamp",
   "SetTimingAttributeExTimestamp",
   "SetTimingAttributeTimestamp",
   "SetTrigAttributeTimestamp",
   "GetArmStartTrigTrigWhen",
   "GetFirstSampClkWhen",
   "GetStartTrigTrigWhen",
   "GetSyncPulseTimeWhen",
   "SetArmStartTrigTrigWhen",
   "SetFirstSampClkWhen",
   "SetStartTrigTrigWhen",
   "SetSyncPulseTimeWhen"]

def LIBRARY_INTERPRETER_IGNORED_FUNCTIONS : List String :=
  ["RegisterSignalEvent",
   "RegisterEveryNSamplesEvent",
   "RegisterDoneEvent"]

def is_skippable_param (p : RawParam) : Bool :=
  !p.include_in_proto && (p.name == "size" || p.name == "reserved")

def get_skippable_params_for_interpreter_func (fd : FunctionData) : List String :=
  fd.parameters.foldl
    (fun acc p =>
      let acc := match p.size with
        | some s => if s.mechanism == "ivi-dance" then acc ++ [s.value] else acc
        | none => acc
      if is_skippable_param p then acc ++ [p.name] else acc)
    []

/-- One iteration of the loop of `get_interpreter_functions`: skip the
entry when its native name is in `INTERPRETER_IGNORED_FUNCTIONS`,
otherwise normalize the name and drop the skippable parameters. -/
def ingestStep (acc : List InterpFunc) (entry : String × FunctionData) : List InterpFunc :=
  if INTERPRETER_IGNORED_FUNCTIONS.contains entry.fst then acc
  else
    let skippable := get_skippable_params_for_interpreter_func entry.snd
    acc ++ [{ function_name := pyReplace (camel_to_snake_case entry.fst) "_u_int" "_uint",
              c_function_name := entry.fst,
              parameters := entry.snd.parameters.filter (fun p => !skippable.contains p.name) }]

def interpFuncLe (a b : InterpFunc) : Prop := a.function_name ≤ b.function_name

instance : DecidableRel interpFuncLe := fun a b =>
  inferInstanceAs (Decidable (a.function_name ≤ b.function_name))

instance : IsTotal InterpFunc interpFuncLe := ⟨fun a b => le_total a.function_name b.function_name⟩

instance : IsTrans InterpFunc interpFuncLe := ⟨fun _ _ _ h h' => le_trans h h'⟩

/-- `get_interpreter_functions`: the catalog (a name-keyed mapping,
modelled as the list of its entries in insertion order) is filtered and
normalized, and the result is sorted by normalized function name
(Python's stable `sorted` modelled by stable insertion sort). -/
def get_interpreter_functions (metadata : List (String × FunctionData)) : List InterpFunc :=
  List.insertionSort interpFuncLe (metadata.foldl ingestStep [])

/-! ## Call-site argument generation -/

def dictInsert : List (String × SizeParameter) → String → SizeParameter → List (String × SizeParameter)
  | [], k, v => [(k, v)]
  | (k', v') :: rest, k, v =>
    if k' == k then (k, v) :: rest else (k', v') :: dictInsert rest k v

def dictFind : List (String × SizeParameter) → String → Option SizeParameter
  | [], _ => none
  | (k', v') :: rest, k => if k' == k then some v' else dictFind rest k

/-- The first loop of `generate_interpreter_function_call_args`, one
iteration: record into `size_values` which parameter supplies each size
slot (`size.value`).  Python dict assignment overwrites, so a later
parameter writing the same slot replaces an earlier one. -/
def svStep (m : List (String × SizeParameter)) (p : Param) : List (String × SizeParameter) :=
  if p.has_explicit_buffer_size then
    if p.direction == "in" then
      dictInsert m p.size.value ⟨p.parameter_name, "len(" ++ p.parameter_name ++ ")"⟩
    else if p.direction == "out" then
      if p.size.mechanism == "ivi-dance" then
        dictInsert m p.size.value ⟨p.parameter_name, "temp_size"⟩
      else m
    else m
  else m

def build_size_values (ps : List Param) : List (String × SizeParameter) :=
  ps.foldl svStep []

/-- The second loop of `generate_interpreter_function_call_args`, one
iteration: emit the call argument for a parameter, then the recorded
size expression when this parameter supplies its own size slot. -/
def argStep (size_values : List (String × SizeParameter)) (args : List String) (p : Param) :
    List String :=
  let args :=
    if p.direction == "in" then
      args ++ [p.parameter_name]
    else if p.direction == "out" then
      if p.has_explicit_buffer_size then
        args ++ [p.parameter_name]
      else
        args ++ ["ctypes.byref(" ++ p.parameter_name ++ ")"]
    else args
  if p.has_explicit_buffer_size then
    match dictFind size_values p.size.value with
    | some sp => if p.parameter_name == sp.name then args ++ [sp.size] else args
    | none => args
  else args

def generate_interpreter_function_call_args (f : Func) : List String :=
  let size_values := build_size_values f.interpreter_parameters
  f.interpreter_parameters.foldl (argStep size_values) []

/-! ## Template selection -/

/-- The `NotImplementedError` raised by
`get_output_param_with_ivi_dance_mechanism`, carrying the offending
parameter list that the Python message formats. -/
inductive GenError where
  | moreThanOneIviDance (ps : List Param)
deriving DecidableEq

def get_output_params (f : Func) : List Param :=
  f.base_parameters.filter (fun p => p.direction == "out")

def get_interpreter_output_params (f : Func) : List Param :=
  f.interpreter_parameters.filter (fun p => p.direction == "out")

def get_output_param_with_ivi_dance_mechanism (f : Func) : Except GenError (Option Param) :=
  let output_parameters := get_output_params f
  let explicit_output_params := output_parameters.filter (fun p => p.has_explicit_buffer_size)
  let params_with_ivi_dance_mechanism :=
    explicit_output_params.filter (fun p => p.size.mechanism == "ivi-dance")
  if params_with_ivi_dance_mechanism.length > 1 then
    .error (.moreThanOneIviDance params_with_ivi_dance_mechanism)
  else if params_with_ivi_dance_mechanism.length == 1 then
    .ok params_with_ivi_dance_mechanism.head?
  else
    .ok none

def has_parameter_with_ivi_dance_size_mechanism (f : Func) : Except GenError Bool :=
  (get_output_param_with_ivi_dance_mechanism f).map (fun p => p.isSome)

def get_varargs_parameters (f : Func) : List Param :=
  f.parameters.filter (fun p => p.repeating_argument)

def get_c_function_call_template (f : Func) : Except GenError String :=
  if f.stream_response then .ok "/event_function_call.py.mako"
  else if !(get_varargs_parameters f).isEmpty then .ok "/exec_cdecl_c_function_call.py.mako"
  else
    match has_parameter_with_ivi_dance_size_mechanism f with
    | .error e => .error e
    | .ok true => .ok "/double_c_function_call.py.mako"
    | .ok false => .ok "/default_c_function_call.py.mako"

/-! ## Output instantiation and return values -/

/-- The body of the loop of `get_instantiation_lines_for_output`:
`continue` for a parameter named `task`, then the `elif` chain of the
source appending the instantiation statements for one parameter. -/
def instStep (lines : List String) (p : Param) : List String :=
  if p.parameter_name == "task" then lines
  else if p.repeating_argument then
    lines ++ [p.parameter_name ++ " = []"]
  else if p.has_explicit_buffer_size then
    if (p.size.mechanism == "passed-in" || p.size.mechanism == "passed-in-by-ptr")
        && p.is_list then
      lines ++ [p.parameter_name ++ " = numpy.zeros(" ++ p.size.value ++
                ", dtype=" ++ p.ctypes_data_type ++ ")"]
    else if p.size.mechanism == "custom-code" then
      lines ++ ["size = " ++ p.size.value,
                p.parameter_name ++ " = numpy.zeros(size, dtype=" ++ p.ctypes_data_type ++ ")"]
    else lines
  else
    lines ++ [p.parameter_name ++ " = " ++ p.ctypes_data_type ++ "()"]

def get_instantiation_lines_for_output (f : Func) : List String :=
  let init_lines : List String :=
    if f.is_init_method then ["task = lib_importer.task_handle(0)"] else []
  (get_interpreter_output_params f).foldl instStep init_lines

/-- Modelled from the spec: `to_param_argtype` (declared in
`codegen.utilities.function_helpers`, outside the given sources)
returns the native type tag paired with a vararg argument. -/
def to_param_argtype (p : Param) : String := p.ctypes_data_type

/-- The body of the loop of `get_argument_definition_lines_for_varargs`:
the argument append, the type-tag append, and the blank separator line
contributed by one repeating parameter. -/
def varargArgStep (lines : List String) (p : Param) : List String :=
  let argtype := to_param_argtype p
  let lines :=
    if p.direction == "in" then
      lines ++ ["args.append(" ++ p.parameter_name ++ "[index])"]
    else
      lines ++ ["args.append(ctypes.byref(" ++ p.parameter_name ++ "_element))"]
  lines ++ ["argtypes.append(" ++ argtype ++ ")", ""]

def get_argument_definition_lines_for_varargs (varargs_params : List Param) : List String :=
  varargs_params.foldl varargArgStep []

/-- The body of the loop of `get_instantiation_lines_for_varargs`: the
two pre-allocation lines contributed by one output parameter. -/
def varargInstStep (lines : List String) (p : Param) : List String :=
  lines ++ [p.parameter_name ++ "_element = " ++ p.ctypes_data_type ++ "()",
            p.parameter_name ++ ".append(" ++ p.parameter_name ++ "_element)"]

def get_instantiation_lines_for_varargs (f : Func) : List String :=
  if !(get_varargs_parameters f).isEmpty then
    f.output_parameters.foldl varargInstStep []
  else []

/-- The body of the loop of `get_return_values`: the `elif` chain of
the source appending the return expression of one output parameter. -/
def retStep (acc : List String) (p : Param) : List String :=
  if p.repeating_argument then
    acc ++ ["[" ++ p.parameter_name ++ "_element.value for " ++ p.parameter_name ++
            "_element in " ++ p.parameter_name ++ "]"]
  else if p.ctypes_data_type == "ctypes.c_char_p" then
    acc ++ [p.parameter_name ++ ".value.decode('ascii')"]
  else if p.is_list then
    acc ++ [p.parameter_name ++ ".tolist()"]
  else if p.type == "TaskHandle" then
    acc ++ [p.parameter_name]
  else
    acc ++ [p.parameter_name ++ ".value"]

def get_return_values (f : Func) : List String :=
  (get_interpreter_output_params f).foldl retStep []

/-! ## Bridge from raw metadata to the function model -/

/-- Modelled from the spec: the `Parameter` model (declared in
`codegen.parameters`, outside the given sources) wraps one raw
metadata parameter; `has_explicit_buffer_size` holds exactly when the
raw descriptor carries a size relationship. -/
def toInterpreterParam (p : RawParam) : Param :=
  { parameter_name := p.name,
    direction := p.direction,
    has_explicit_buffer_size := p.size.isSome,
    size := p.size.getD ⟨"", ""⟩,
    repeating_argument := p.repeating_argument,
    is_list := p.is_list,
    ctypes_data_type := p.ctypes_data_type,
    type := p.type }

/-- Modelled from the spec: the interpreter parameters of an ingested
function are its parameters after ingestion dropped the skippable ones
(spec section 4.1), wrapped by the parameter model. -/
def interpreterParamsOfRaw (fd : FunctionData) : List Param :=
  (fd.parameters.filter
      (fun p => !(get_skippable_params_for_interpreter_func fd).contains p.name)).map
    toInterpreterParam

/-- A function model whose interpreter parameters come from ingesting
raw metadata; only the fields that argument generation reads are
populated. -/
def funcOfRaw (fd : FunctionData) : Func :=
  { parameters := fd.parameters.map toInterpreterParam,
    base_parameters := fd.parameters.map toInterpreterParam,
    interpreter_parameters := interpreterParamsOfRaw fd,
    is_init_method := false,
    stream_response := false }

/-! ## Specification-level descriptions

The following definitions restate, parameter by parameter, what the
spec says each generation pass emits.  The claim theorems below relate
them to the embedded source functions.
-/

/-- A parameter that the first loop of
`generate_interpreter_function_call_args` records as the supplier of
its size slot: an `in` parameter with an explicit buffer size, or an
`out` parameter with an explicit buffer size and the `ivi-dance`
mechanism. -/
def is_size_supplier_candidate (p : Param) : Bool :=
  p.has_explicit_buffer_size &&
    (p.direction == "in" || (p.direction == "out" && p.size.mechanism == "ivi-dance"))

/-- The size expression a supplier contributes: the computed length of
an `in` parameter, or the temporary size variable of an `ivi-dance`
output parameter. -/
def supplier_size_expr (p : Param) : String :=
  if p.direction == "in" then "len(" ++ p.parameter_name ++ ")" else "temp_size"

def supplierEntry (p : Param) : SizeParameter :=
  ⟨p.parameter_name, supplier_size_expr p⟩

def rsStep (v : String) (acc : Option Param) (p : Param) : Option Param :=
  if is_size_supplier_candidate p && p.size.value == v then some p else acc

/-- The parameter recorded in `size_values` for slot `v` once the first
loop finishes: the last candidate in declaration order writing slot
`v`, since Python dict assignment overwrites. -/
def recorded_supplier (ps : List Param) (v : String) : Option Param :=
  ps.foldl (rsStep v) none

/-- Specification of the call arguments one parameter contributes:
`in` parameters by name, explicitly sized `out` parameters by name,
other `out` parameters by reference; a parameter recorded as the
supplier of its own size slot is followed by the computed size
expression. -/
def call_arg_spec (ps : List Param) (p : Param) : List String :=
  (if p.direction == "in" then [p.parameter_name]
   else if p.direction == "out" then
     if p.has_explicit_buffer_size then [p.parameter_name]
     else ["ctypes.byref(" ++ p.parameter_name ++ ")"]
   else []) ++
  (if p.has_explicit_buffer_size then
     match recorded_supplier ps p.size.value with
     | some q => if p.parameter_name == q.parameter_name then [supplier_size_expr q] else []
     | none => []
   else [])

/-- Specification of the instantiation lines one output parameter
receives: none for a parameter named `task`; an empty ordered sequence
for a repeating output; a zero-filled buffer for a list output sized by
`passed-in`/`passed-in-by-ptr`; a computed size plus a zero-filled
buffer for a `custom-code` sized output; nothing for any other
explicitly sized output; a zero-initialized scalar otherwise. -/
def instantiation_line_spec (p : Param) : List String :=
  if p.parameter_name == "task" then []
  else if p.repeating_argument then [p.parameter_name ++ " = []"]
  else if p.has_explicit_buffer_size then
    if (p.size.mechanism == "passed-in" || p.size.mechanism == "passed-in-by-ptr")
        && p.is_list then
      [p.parameter_name ++ " = numpy.zeros(" ++ p.size.value ++
       ", dtype=" ++ p.ctypes_data_type ++ ")"]
    else if p.size.mechanism == "custom-code" then
      ["size = " ++ p.size.value,
       p.parameter_name ++ " = numpy.zeros(size, dtype=" ++ p.ctypes_data_type ++ ")"]
    else []
  else [p.parameter_name ++ " = " ++ p.ctypes_data_type ++ "()"]

/-- Specification of the post-call return expression of one output
parameter, with the shapes tested in the claimed precedence: repeating,
then text (`ctypes.c_char_p`), then buffer (list), then task handle,
then plain scalar. -/
def return_value_spec (p : Param) : String :=
  if p.repeating_argument then
    "[" ++ p.parameter_name ++ "_element.value for " ++ p.parameter_name ++
    "_element in " ++ p.parameter_name ++ "]"
  else if p.ctypes_data_type == "ctypes.c_char_p" then
    p.parameter_name ++ ".value.decode('ascii')"
  else if p.is_list then
    p.parameter_name ++ ".tolist()"
  else if p.type == "TaskHandle" then
    p.parameter_name
  else
    p.parameter_name ++ ".value"

/-- Specification of the vararg call-site lines of one repeating
parameter: exactly one argument append (the indexed input element for
`in`, a reference to the reserved scalar element for `out`) immediately
paired with exactly one type-tag append, then a blank separator
line. -/
def vararg_argument_lines_spec (p : Param) : List String :=
  [(if p.direction == "in" then "args.append(" ++ p.parameter_name ++ "[index])"
    else "args.append(ctypes.byref(" ++ p.parameter_name ++ "_element))"),
   "argtypes.append(" ++ to_param_argtype p ++ ")",
   ""]

/-- Specification of the vararg pre-allocation lines of one output
parameter: one reserved scalar element, appended once to the
return-collecting sequence. -/
def vararg_instantiation_lines_spec (p : Param) : List String :=
  [p.parameter_name ++ "_element = " ++ p.ctypes_data_type ++ "()",
   p.parameter_name ++ ".append(" ++ p.parameter_name ++ "_element)"]

/-- The explicitly sized `ivi-dance` output parameters of a function,
exactly as `get_output_param_with_ivi_dance_mechanism` collects them. -/
def ivi_dance_output_params (f : Func) : List Param :=
  ((get_output_params f).filter (fun p => p.has_explicit_buffer_size)).filter
    (fun p => p.size.mechanism == "ivi-dance")

/-- `f` with its `out`-direction interpreter parameters named `task`
removed. -/
def nonTaskOutput (p : Param) : Bool := !(p.direction == "out" && p.parameter_name == "task")

def eraseTaskOutputs (f : Func) : Func :=
  { f with interpreter_parameters := f.interpreter_parameters.filter nonTaskOutput }

/-- The pair of characters the name-normalization claims forbid
creating: an underscore separator immediately before a digit. -/
def noSplit (a b : Char) : Prop := ¬(a = '_' ∧ b.isDigit = true)

instance : DecidableRel noSplit := fun _ _ => instDecidableNot

/-- No underscore of the character list stands immediately before a
digit. -/
def no_underscore_before_digit (l : List Char) : Prop := List.Chain' noSplit l

instance noUnderscoreBeforeDigitDec :
    (l : List Char) → Decidable (no_underscore_before_digit l)
  | [] => isTrue List.chain'_nil
  | [a] => isTrue (List.chain'_singleton a)
  | a :: b :: l =>
    match inferInstanceAs (Decidable (noSplit a b)), noUnderscoreBeforeDigitDec (b :: l) with
    | isTrue h1, isTrue h2 => isTrue (List.chain'_cons.mpr ⟨h1, h2⟩)
    | isFalse h1, _ => isFalse (fun hc => h1 (List.chain'_cons.mp hc).1)
    | _, isFalse h2 => isFalse (fun hc => h2 (List.chain'_cons.mp hc).2)

/-! ## Concrete inputs used by counterexamples and witnesses -/

/-- An explicitly sized `ivi-dance` output buffer parameter. -/
def pIviBuf : Param :=
  ⟨"buf", "out", true, ⟨"bufferSize", "ivi-dance"⟩, false, true, "ctypes.c_char", "char[]"⟩

/-- A streaming function with exactly one `ivi-dance` output. -/
def fStreamIvi : Func := ⟨[], [pIviBuf], [], false, true⟩

/-- A plain function with exactly one `ivi-dance` output. -/
def fOneIvi : Func := ⟨[], [pIviBuf], [], false, false⟩

/-- Two `in` parameters named `a` and `b`, both explicitly sized, whose
size descriptors name the same size slot `n`. -/
def pSlotA : Param := ⟨"a", "in", true, ⟨"n", "passed-in"⟩, false, true, "numpy.float64", "f64"⟩

def pSlotB : Param := ⟨"b", "in", true, ⟨"n", "passed-in"⟩, false, true, "numpy.float64", "f64"⟩

def fSharedSlot : Func := ⟨[], [], [pSlotA, pSlotB], false, false⟩

/-- Raw metadata of a `data`/`numSamps` pair whose size descriptor uses
the given mechanism. -/
def rawDataParam (mech : String) : RawParam :=
  ⟨"data", "in", some ⟨"numSamps", mech⟩, true, true, false, "numpy.uint32", "uInt32"⟩

def rawNumSampsParam : RawParam :=
  ⟨"numSamps", "in", none, true, false, false, "ctypes.c_uint", "uInt32"⟩

def fdDataPassedIn : FunctionData := ⟨[rawDataParam "passed-in", rawNumSampsParam]⟩

/-- A repeating (list-producing) output parameter named `task` on a
function that is not the task-creation entry point. -/
def pTaskRepeating : Param :=
  ⟨"task", "out", false, ⟨"", ""⟩, true, false, "lib_importer.task_handle", "TaskHandle"⟩

def fTaskRepeating : Func := ⟨[], [], [pTaskRepeating], false, false⟩

/-- A vararg function: one repeating `in` parameter and one repeating
`out` parameter. -/
def pVarIn : Param := ⟨"chans", "in", false, ⟨"", ""⟩, true, false, "ctypes.c_double", "f64"⟩

def pVarOut : Param := ⟨"vals", "out", false, ⟨"", ""⟩, true, false, "ctypes.c_double", "f64"⟩

def fVarargs : Func :=
  ⟨[pVarIn, pVarOut], [pVarIn, pVarOut], [pVarIn, pVarOut], false, false⟩

/-! ## Helper lemmas -/

/-- A fold whose step appends a per-element block equals the flat map
of the blocks. -/
theorem foldl_step_append {α β : Type} (step : List β → α → List β) (g : α → List β)
    (h : ∀ acc p, step acc p = acc ++ g p) :
    ∀ (ps : List α) (a : List β), ps.foldl step a = a ++ ps.flatMap g := by
  intro ps
  induction ps with
  | nil => intro a; simp
  | cons p ps ih =>
    intro a
    rw [List.foldl_cons, ih, h, List.flatMap_cons, List.append_assoc]

theorem flatMap_singleton_eq_map {α β : Type} (g : α → β) (l : List α) :
    l.flatMap (fun a => [g a]) = l.map g := by
  induction l with
  | nil => rfl
  | cons a l ih => simp [ih]

theorem flatMap_const_length {α β : Type} (g : α → List β) (k : Nat)
    (h : ∀ a, (g a).length = k) (l : List α) :
    (l.flatMap g).length = k * l.length := by
  induction l with
  | nil => simp
  | cons a l ih => simp [h, ih, Nat.mul_succ, Nat.add_comm]

theorem dictFind_insert (m : List (String × SizeParameter)) (k q : String) (v : SizeParameter) :
    dictFind (dictInsert m k v) q = if k == q then some v else dictFind m q := by
  induction m with
  | nil => rfl
  | cons e rest ih =>
    obtain ⟨k0, v0⟩ := e
    by_cases h0 : k0 = k
    · subst h0
      by_cases hq : k0 = q <;> simp [dictInsert, dictFind, hq]
    · by_cases hq : k0 = q
      · subst hq
        have hkq : ¬(k = k0) := fun h => h0 h.symm
        simp [dictInsert, dictFind, h0, hkq]
      · simp [dictInsert, dictFind, h0, hq, ih]

theorem rs_fold (v : String) (ps : List Param) :
    ∀ a : Option Param, ps.foldl (rsStep v) a = (recorded_supplier ps v).or a := by
  induction ps with
  | nil => intro a; simp [recorded_supplier]
  | cons p ps ih =>
    intro a
    have hrc : recorded_supplier (p :: ps) v = (recorded_supplier ps v).or (rsStep v none p) := by
      rw [recorded_supplier, List.foldl_cons, ih]
    rw [List.foldl_cons, ih, hrc]
    cases recorded_supplier ps v with
    | some q => rfl
    | none =>
      show rsStep v a p = (rsStep v none p).or a
      by_cases hc : (is_size_supplier_candidate p && p.size.value == v) = true <;>
        simp [rsStep, hc]

theorem svStep_eq (m : List (String × SizeParameter)) (p : Param) :
    svStep m p =
      if is_size_supplier_candidate p then dictInsert m p.size.value (supplierEntry p) else m := by
  cases hb : p.has_explicit_buffer_size with
  | false => simp [svStep, is_size_supplier_candidate, hb]
  | true =>
    by_cases hin : p.direction = "in"
    · simp [svStep, is_size_supplier_candidate, supplierEntry, supplier_size_expr, hb, hin]
    · by_cases hout : p.direction = "out"
      · by_cases hm : p.size.mechanism = "ivi-dance" <;>
          simp [svStep, is_size_supplier_candidate, supplierEntry, supplier_size_expr,
            hb, hin, hout, hm]
      · simp [svStep, is_size_supplier_candidate, hb, hin, hout]

theorem recorded_supplier_cons (p : Param) (ps : List Param) (v : String) :
    recorded_supplier (p :: ps) v = (recorded_supplier ps v).or (rsStep v none p) := by
  rw [recorded_supplier, List.foldl_cons, rs_fold]

theorem sv_fold (ps : List Param) (v : String) :
    ∀ m : List (String × SizeParameter),
      dictFind (ps.foldl svStep m) v =
        ((recorded_supplier ps v).map supplierEntry).or (dictFind m v) := by
  induction ps with
  | nil => intro m; simp [recorded_supplier]
  | cons p ps ih =>
    intro m
    rw [List.foldl_cons, ih, recorded_supplier_cons]
    cases recorded_supplier ps v with
    | some q => rfl
    | none =>
      simp only [Option.none_or, Option.map_none, Option.map_some]
      rw [svStep_eq]
      by_cases hc : is_size_supplier_candidate p = true
      · by_cases hv : p.size.value = v
        · subst hv
          simp [rsStep, hc, dictFind_insert]
        · simp [rsStep, hc, hv, dictFind_insert]
      · simp [rsStep, hc]

theorem build_size_values_eq (ps : List Param) (v : String) :
    dictFind (build_size_values ps) v = (recorded_supplier ps v).map supplierEntry := by
  rw [build_size_values, sv_fold]
  cases recorded_supplier ps v <;> rfl

theorem argStep_eq (ps : List Param) (p : Param) (args : List String) :
    argStep (build_size_values ps) args p = args ++ call_arg_spec ps p := by
  have hfind := build_size_values_eq ps p.size.value
  unfold argStep call_arg_spec
  rw [hfind]
  cases hrec : recorded_supplier ps p.size.value with
  | none =>
    cases hb : p.has_explicit_buffer_size <;>
      by_cases hin : p.direction = "in" <;>
        by_cases hout : p.direction = "out" <;>
          simp [hb, hin, hout]
  | some q =>
    by_cases hname : p.parameter_name = q.parameter_name <;>
      cases hb : p.has_explicit_buffer_size <;>
        by_cases hin : p.direction = "in" <;>
          by_cases hout : p.direction = "out" <;>
            simp [supplierEntry, hb, hin, hout, hname]

theorem filter_head?_eq_find? {α : Type} (c : α → Bool) (l : List α) :
    (l.filter c).head? = l.find? c := by
  induction l with
  | nil => rfl
  | cons a l ih => by_cases h : c a <;> simp [h, ih, List.find?_cons, List.filter_cons]

theorem recorded_supplier_eq_reverse_find? (ps : List Param) (v : String) :
    recorded_supplier ps v =
      ps.reverse.find? (fun p => is_size_supplier_candidate p && p.size.value == v) := by
  induction ps with
  | nil => rfl
  | cons p ps ih =>
    rw [recorded_supplier_cons, ih, List.reverse_cons, List.find?_append]
    congr 1
    by_cases hc : (is_size_supplier_candidate p && p.size.value == v) = true <;>
      simp [List.find?, rsStep, hc]

theorem recorded_supplier_eq_getLast? (ps : List Param) (v : String) :
    recorded_supplier ps v =
      (ps.filter (fun p => is_size_supplier_candidate p && p.size.value == v)).getLast? := by
  rw [recorded_supplier_eq_reverse_find?, List.getLast?_eq_head?_reverse, ← List.filter_reverse,
    filter_head?_eq_find?]

/-! ## Claims C2, C3 and C4: call-argument construction -/

/-- C2: the call-argument list is produced by walking the interpreter
parameters in declared order, emitting the name of each `in` parameter,
the name of each explicitly sized `out` parameter, a `ctypes.byref`
reference for each other `out` parameter, and, after a parameter whose
size slot is recorded as supplied by that same parameter, the computed
size expression (`len(<name>)` for an `in` supplier, `temp_size` for an
`ivi-dance` `out` supplier). -/
theorem c2_call_argument_construction (f : Func) :
    generate_interpreter_function_call_args f =
      f.interpreter_parameters.flatMap (call_arg_spec f.interpreter_parameters) := by
  unfold generate_interpreter_function_call_args
  rw [foldl_step_append (argStep (build_size_values f.interpreter_parameters))
      (call_arg_spec f.interpreter_parameters)
      (fun args p => argStep_eq f.interpreter_parameters p args) f.interpreter_parameters []]
  rfl

/-- C4 (counterexample): when the parameters `a` and `b` both feed the
size slot `n`, the emitted size expression is `len(b)`, the one
recorded for the last matching parameter in declaration order; the
claimed first-match expression `len(a)` is not emitted. -/
theorem c4_counterexample :
    generate_interpreter_function_call_args fSharedSlot = ["a", "b", "len(b)"]
    ∧ ¬ "len(a)" ∈ generate_interpreter_function_call_args fSharedSlot := by
  decide

/-- C4 (amended): the supplier recorded in `size_values` for a slot —
and therefore the size expression emitted at the call site — is the one
of the last parameter in declaration order that matches the slot, which
is deterministic. -/
theorem c4_last_candidate_wins (ps : List Param) (v : String) :
    dictFind (build_size_values ps) v =
      ((ps.filter (fun p => is_size_supplier_candidate p && p.size.value == v)).getLast?).map
        supplierEntry := by
  rw [build_size_values_eq, recorded_supplier_eq_getLast?]

/-- C3 (counterexample): for the two `in` parameters `data` (explicitly
sized by slot `numSamps` with the `passed-in` mechanism) and
`numSamps`, the pipeline of ingestion filtering plus argument
generation passes `numSamps` directly: the claim that `numSamps` never
appears as a directly-passed parameter fails. -/
theorem c3_counterexample :
    generate_interpreter_function_call_args (funcOfRaw fdDataPassedIn) =
      ["data", "len(data)", "numSamps"]
    ∧ "numSamps" ∈ generate_interpreter_function_call_args (funcOfRaw fdDataPassedIn) := by
  decide

/-- C3 (amended): for the two `in` parameters `data` (explicitly sized
by slot `numSamps` with the `ivi-dance` mechanism, which makes the size
parameter skippable) and `numSamps`, ingestion drops `numSamps` and the
generated call arguments are `data` immediately followed by the
computed `len(data)`, with `numSamps` never passed directly; this holds
whatever the remaining metadata fields are. -/
theorem c3_size_parameter_elided (t1 t2 u1 u2 : String) (b1 b2 : Bool) :
    generate_interpreter_function_call_args
        (funcOfRaw ⟨[⟨"data", "in", some ⟨"numSamps", "ivi-dance"⟩, b1, true, false, t1, u1⟩,
                     ⟨"numSamps", "in", none, b2, false, false, t2, u2⟩]⟩) =
      ["data", "len(data)"]
    ∧ ¬ "numSamps" ∈ generate_interpreter_function_call_args
        (funcOfRaw ⟨[⟨"data", "in", some ⟨"numSamps", "ivi-dance"⟩, b1, true, false, t1, u1⟩,
                     ⟨"numSamps", "in", none, b2, false, false, t2, u2⟩]⟩) := by
  have he : generate_interpreter_function_call_args
      (funcOfRaw ⟨[⟨"data", "in", some ⟨"numSamps", "ivi-dance"⟩, b1, true, false, t1, u1⟩,
                   ⟨"numSamps", "in", none, b2, false, false, t2, u2⟩]⟩) =
      ["data", "len(data)"] := by
    cases b1 <;> cases b2 <;> rfl
  rw [he]
  exact ⟨rfl, by decide⟩

/-! ## Claim C1: template selection and the ivi-dance error -/

theorem get_output_param_ivi_eq (f : Func) :
    get_output_param_with_ivi_dance_mechanism f =
      if (ivi_dance_output_params f).length > 1 then
        .error (.moreThanOneIviDance (ivi_dance_output_params f))
      else if (ivi_dance_output_params f).length == 1 then
        .ok (ivi_dance_output_params f).head?
      else .ok none := rfl

theorem get_c_template_eq (f : Func) (hs : f.stream_response = false)
    (hv : get_varargs_parameters f = []) :
    get_c_function_call_template f =
      match has_parameter_with_ivi_dance_size_mechanism f with
      | .error e => .error e
      | .ok true => .ok "/double_c_function_call.py.mako"
      | .ok false => .ok "/default_c_function_call.py.mako" := by
  rw [get_c_function_call_template, hs, hv]
  rfl

/-- C1 (counterexample): a streaming function with exactly one
`ivi-dance` output parameter selects the event template, not the
two-pass template: as stated (for every function, template choice
determined by the ivi-dance output count alone) the claim fails. -/
theorem c1_counterexample :
    get_c_function_call_template fStreamIvi = Except.ok "/event_function_call.py.mako"
    ∧ (ivi_dance_output_params fStreamIvi).length = 1 :=
  ⟨rfl, rfl⟩

/-- C1 (amended): for a non-streaming function with no vararg
parameters, exactly one explicitly sized `ivi-dance` output parameter
makes template selection choose the two-pass template, and two or more
such parameters make template determination fail with the
identifiable `moreThanOneIviDance` error naming the offending
parameters — no template is returned. -/
theorem c1_template_selection (f : Func)
    (hs : f.stream_response = false) (hv : get_varargs_parameters f = []) :
    ((ivi_dance_output_params f).length = 1 →
      get_c_function_call_template f = Except.ok "/double_c_function_call.py.mako")
    ∧ (2 ≤ (ivi_dance_output_params f).length →
      get_c_function_call_template f =
        Except.error (GenError.moreThanOneIviDance (ivi_dance_output_params f))) := by
  constructor
  · intro h1
    obtain ⟨a, ha⟩ := List.length_eq_one.mp h1
    rw [get_c_template_eq f hs hv]
    simp only [has_parameter_with_ivi_dance_size_mechanism, get_output_param_ivi_eq, ha]
    rfl
  · intro h2
    rw [get_c_template_eq f hs hv]
    simp only [has_parameter_with_ivi_dance_size_mechanism, get_output_param_ivi_eq]
    rw [if_pos (by omega : (ivi_dance_output_params f).length > 1)]
    rfl

/-- C1 (witness): the amended theorem applied to the concrete
single-ivi-dance function `fOneIvi`. -/
theorem c1_template_selection_witness :
    ((ivi_dance_output_params fOneIvi).length = 1 →
      get_c_function_call_template fOneIvi = Except.ok "/double_c_function_call.py.mako")
    ∧ (2 ≤ (ivi_dance_output_params fOneIvi).length →
      get_c_function_call_template fOneIvi =
        Except.error (GenError.moreThanOneIviDance (ivi_dance_output_params fOneIvi))) :=
  c1_template_selection fOneIvi rfl rfl

/-! ## Claims C6, C7 and C10: output instantiation and return values -/

theorem instStep_eq (lines : List String) (p : Param) :
    instStep lines p = lines ++ instantiation_line_spec p := by
  unfold instStep instantiation_line_spec
  by_cases ht : p.parameter_name = "task"
  · simp [ht]
  · by_cases hr : p.repeating_argument = true
    · simp [ht, hr]
    · by_cases hb : p.has_explicit_buffer_size = true
      · by_cases hm : ((p.size.mechanism == "passed-in"
            || p.size.mechanism == "passed-in-by-ptr") && p.is_list) = true
        · simp [ht, hr, hb, hm]
        · by_cases hc : p.size.mechanism = "custom-code" <;> simp [ht, hr, hb, hm, hc]
      · simp [ht, hr, hb]

/-- The loop of `get_instantiation_lines_for_output` appends, after the
optional task-handle line, exactly the per-parameter blocks of
`instantiation_line_spec`. -/
theorem inst_lines_characterization (f : Func) :
    get_instantiation_lines_for_output f =
      (if f.is_init_method then ["task = lib_importer.task_handle(0)"] else []) ++
        (get_interpreter_output_params f).flatMap instantiation_line_spec := by
  unfold get_instantiation_lines_for_output
  rw [foldl_step_append instStep instantiation_line_spec instStep_eq]

/-- C6 (counterexample): a repeating output parameter named `task` on a
function that is not the task-creation entry point receives no
instantiation line at all, where the claimed shape policy (a repeating
output becomes an empty ordered sequence) demands `task = []`. -/
theorem c6_counterexample :
    get_interpreter_output_params fTaskRepeating = [pTaskRepeating]
    ∧ pTaskRepeating.repeating_argument = true
    ∧ get_instantiation_lines_for_output fTaskRepeating = [] := by
  decide

/-- C6 (amended): output instantiation prepends the zero-initialized
task-handle statement exactly when the function is the task-creation
entry point, regardless of the other output parameters, and otherwise
emits per output parameter the blocks of `instantiation_line_spec`:
nothing for a parameter named `task`, an empty ordered sequence for a
repeating output, a zero-filled sized buffer for a list output with
`passed-in`/`passed-in-by-ptr` sizing, a computed size plus buffer for
`custom-code` sizing (list or not), nothing for any other explicitly
sized output, and a zero-initialized scalar otherwise. -/
theorem c6_output_instantiation (f : Func) :
    get_instantiation_lines_for_output f =
      (if f.is_init_method then ["task = lib_importer.task_handle(0)"] else []) ++
        (get_interpreter_output_params f).flatMap instantiation_line_spec :=
  inst_lines_characterization f

theorem retStep_eq (acc : List String) (p : Param) :
    retStep acc p = acc ++ [return_value_spec p] := by
  unfold retStep return_value_spec
  by_cases h1 : p.repeating_argument = true
  · simp [h1]
  · by_cases h2 : p.ctypes_data_type = "ctypes.c_char_p"
    · simp [h1, h2]
    · by_cases h3 : p.is_list = true
      · simp [h1, h2, h3]
      · by_cases h4 : p.type = "TaskHandle" <;> simp [h1, h2, h3, h4]

/-- C7: the post-call return expressions are exactly one
`return_value_spec` expression per output parameter, with the shapes
tested in the claimed precedence: repeating first, then text
(`ctypes.c_char_p`, decoded with the fixed `ascii` encoding), then
buffer (`.tolist()`), then task handle (returned as is), then scalar
(`.value`). -/
theorem c7_return_values (f : Func) :
    get_return_values f = (get_interpreter_output_params f).map return_value_spec := by
  unfold get_return_values
  rw [foldl_step_append retStep (fun p => [return_value_spec p]) retStep_eq,
    flatMap_singleton_eq_map]
  rfl

theorem instantiation_line_spec_task (p : Param) (h : p.parameter_name = "task") :
    instantiation_line_spec p = [] := by
  simp [instantiation_line_spec, h]

theorem flatMap_spec_erase_task (l : List Param) :
    l.flatMap instantiation_line_spec =
      (l.filter (fun p => !(p.parameter_name == "task"))).flatMap instantiation_line_spec := by
  induction l with
  | nil => rfl
  | cons p l ih =>
    by_cases ht : p.parameter_name = "task"
    · simp [List.filter_cons, ht, instantiation_line_spec_task p ht, ih]
    · simp [List.filter_cons, ht, ← ih]

theorem output_params_erase_task (f : Func) :
    get_interpreter_output_params (eraseTaskOutputs f) =
      (get_interpreter_output_params f).filter (fun p => !(p.parameter_name == "task")) := by
  unfold get_interpreter_output_params eraseTaskOutputs
  induction f.interpreter_parameters with
  | nil => rfl
  | cons p l ih =>
    by_cases ho : p.direction = "out" <;>
      by_cases ht : p.parameter_name = "task" <;>
        simp [nonTaskOutput, List.filter_cons, ho, ht, ih]

/-- C10: output instantiation never emits a line for an output
parameter named `task`: removing every `out` parameter named `task`
from a function leaves `get_instantiation_lines_for_output` unchanged,
so the only task-handle line is the one controlled by the
task-creation flag. -/
theorem c10_no_task_instantiation (f : Func) :
    get_instantiation_lines_for_output f =
      get_instantiation_lines_for_output (eraseTaskOutputs f) := by
  rw [inst_lines_characterization, inst_lines_characterization]
  have h1 : (eraseTaskOutputs f).is_init_method = f.is_init_method := rfl
  rw [h1, output_params_erase_task, ← flatMap_spec_erase_task]

/-! ## Claim C9: vararg argument and type-tag lockstep -/

theorem varargArgStep_eq (lines : List String) (p : Param) :
    varargArgStep lines p = lines ++ vararg_argument_lines_spec p := by
  unfold varargArgStep vararg_argument_lines_spec
  by_cases h : p.direction = "in" <;> simp [h]

theorem varargInstStep_eq (lines : List String) (p : Param) :
    varargInstStep lines p = lines ++ vararg_instantiation_lines_spec p := rfl

/-- C9: for a vararg function, the per-index lines keep arguments and
type tags in lockstep — each repeating parameter contributes exactly
one argument append (indexed element for `in`, reference to its
reserved element otherwise) immediately paired with exactly one
type-tag append (three lines per parameter in total, including the
blank separator) — and the pre-allocation pass appends exactly one
reserved element per declared output parameter (two lines each),
independent of the number of input elements. -/
theorem c9_vararg_lockstep (f : Func) (hv : get_varargs_parameters f ≠ []) :
    get_argument_definition_lines_for_varargs (get_varargs_parameters f) =
      (get_varargs_parameters f).flatMap vararg_argument_lines_spec
    ∧ (get_argument_definition_lines_for_varargs (get_varargs_parameters f)).length =
        3 * (get_varargs_parameters f).length
    ∧ get_instantiation_lines_for_varargs f =
        f.output_parameters.flatMap vararg_instantiation_lines_spec
    ∧ (get_instantiation_lines_for_varargs f).length = 2 * f.output_parameters.length := by
  have h1 : get_argument_definition_lines_for_varargs (get_varargs_parameters f) =
      (get_varargs_parameters f).flatMap vararg_argument_lines_spec := by
    unfold get_argument_definition_lines_for_varargs
    rw [foldl_step_append varargArgStep vararg_argument_lines_spec varargArgStep_eq]
    rfl
  have h3 : get_instantiation_lines_for_varargs f =
      f.output_parameters.flatMap vararg_instantiation_lines_spec := by
    unfold get_instantiation_lines_for_varargs
    rw [if_pos (by simpa using hv),
      foldl_step_append varargInstStep vararg_instantiation_lines_spec varargInstStep_eq]
    rfl
  refine ⟨h1, ?_, h3, ?_⟩
  · rw [h1]
    exact flatMap_const_length _ 3
      (fun p => by by_cases h : p.direction = "in" <;> simp [vararg_argument_lines_spec, h]) _
  · rw [h3]
    exact flatMap_const_length vararg_instantiation_lines_spec 2 (fun p => rfl)
      f.output_parameters

/-- C9 (witness): the lockstep theorem applied to the concrete vararg
function `fVarargs`. -/
theorem c9_vararg_lockstep_witness :
    get_argument_definition_lines_for_varargs (get_varargs_parameters fVarargs) =
      (get_varargs_parameters fVarargs).flatMap vararg_argument_lines_spec
    ∧ (get_argument_definition_lines_for_varargs (get_varargs_parameters fVarargs)).length =
        3 * (get_varargs_parameters fVarargs).length
    ∧ get_instantiation_lines_for_varargs fVarargs =
        fVarargs.output_parameters.flatMap vararg_instantiation_lines_spec
    ∧ (get_instantiation_lines_for_varargs fVarargs).length =
        2 * fVarargs.output_parameters.length :=
  c9_vararg_lockstep fVarargs (by decide)

/-! ## Claim C5: ingestion filtering and ordering -/

theorem ingest_preserves_not_ignored (md : List (String × FunctionData)) :
    ∀ acc : List InterpFunc,
      (∀ g ∈ acc, INTERPRETER_IGNORED_FUNCTIONS.contains g.c_function_name = false) →
      ∀ g ∈ md.foldl ingestStep acc,
        INTERPRETER_IGNORED_FUNCTIONS.contains g.c_function_name = false := by
  induction md with
  | nil => intro acc h; simpa using h
  | cons e md ih =>
    intro acc h
    rw [List.foldl_cons]
    apply ih
    intro g hg
    unfold ingestStep at hg
    by_cases hc : INTERPRETER_IGNORED_FUNCTIONS.contains e.fst = true
    · rw [if_pos hc] at hg
      exact h g hg
    · rw [if_neg (by simpa using hc)] at hg
      rcases List.mem_append.mp hg with h1 | h2
      · exact h g h1
      · rw [List.mem_singleton.mp h2]
        simpa using hc

/-- C5 (counterexample): `RegisterSignalEvent` is in
`LIBRARY_INTERPRETER_IGNORED_FUNCTIONS`, yet ingestion keeps it: only
`INTERPRETER_IGNORED_FUNCTIONS` is consulted, so the claim that both
ignore-lists are dropped fails. -/
theorem c5_counterexample :
    (get_interpreter_functions [("RegisterSignalEvent", ⟨[]⟩)]).map
        (fun g => g.c_function_name) = ["RegisterSignalEvent"]
    ∧ "RegisterSignalEvent" ∈ LIBRARY_INTERPRETER_IGNORED_FUNCTIONS := by
  decide

/-- C5 (amended): ingestion returns a sequence containing no function
whose native name is in `INTERPRETER_IGNORED_FUNCTIONS` (the legacy
timestamp/trigger-value accessors; the event-registration list is not
consulted here), sorted by normalized function name, ascending and
lexicographic. -/
theorem c5_ingestion_filter_sort (metadata : List (String × FunctionData)) :
    (get_interpreter_functions metadata).filter
        (fun g => INTERPRETER_IGNORED_FUNCTIONS.contains g.c_function_name) = []
    ∧ List.Sorted interpFuncLe (get_interpreter_functions metadata) := by
  constructor
  · rw [List.filter_eq_nil_iff]
    intro g hg
    have hmem : g ∈ metadata.foldl ingestStep [] :=
      (List.mem_insertionSort interpFuncLe).mp
        (by simpa [get_interpreter_functions] using hg)
    simpa using ingest_preserves_not_ignored metadata [] (by simp) g hmem
  · exact List.sorted_insertionSort interpFuncLe _

/-! ## Claim C8: no separator inserted before digits -/

theorem toNat_ofNat_valid (n : Nat) (h : n.isValidChar) : (Char.ofNat n).toNat = n := by
  rw [Char.ofNat, dif_pos h]
  simp [Char.ofNatAux, Char.toNat, UInt32.toNat]

theorem isDigit_iff (c : Char) : c.isDigit = true ↔ (48 ≤ c.toNat ∧ c.toNat ≤ 57) := by
  show ((48 ≤ c.val) && (c.val ≤ 57)) = true ↔ _
  rw [Bool.and_eq_true, decide_eq_true_iff, decide_eq_true_iff]
  exact Iff.rfl

theorem toLower_toNat_of_upper (c : Char) (h : 65 ≤ c.toNat ∧ c.toNat ≤ 90) :
    (Char.toLower c).toNat = c.toNat + 32 := by
  unfold Char.toLower
  rw [if_pos h]
  exact toNat_ofNat_valid _ (Or.inl (by omega))

theorem toLower_eq_self_of_not_upper (c : Char) (h : ¬(65 ≤ c.toNat ∧ c.toNat ≤ 90)) :
    Char.toLower c = c := by
  unfold Char.toLower
  rw [if_neg h]

theorem toLower_eq_underscore {c : Char} (h : Char.toLower c = '_') : c = '_' := by
  by_cases hu : 65 ≤ c.toNat ∧ c.toNat ≤ 90
  · exfalso
    have h95 : (Char.toLower c).toNat = 95 := by rw [h]; rfl
    rw [toLower_toNat_of_upper c hu] at h95
    omega
  · rwa [toLower_eq_self_of_not_upper c hu] at h

theorem isDigit_toLower (c : Char) : (Char.toLower c).isDigit = c.isDigit := by
  by_cases hu : 65 ≤ c.toNat ∧ c.toNat ≤ 90
  · have h1 : (Char.toLower c).isDigit = false := by
      rw [← Bool.not_eq_true]
      intro hd
      have hr := (isDigit_iff _).mp hd
      rw [toLower_toNat_of_upper c hu] at hr
      omega
    have h2 : c.isDigit = false := by
      rw [← Bool.not_eq_true]
      intro hd
      have hr := (isDigit_iff _).mp hd
      omega
    rw [h1, h2]
  · rw [toLower_eq_self_of_not_upper c hu]

theorem noSplit_of_left {a b : Char} (h : ¬ a = '_') : noSplit a b :=
  fun hc => h hc.1

theorem noSplit_of_right {a b : Char} (h : b.isDigit = false) : noSplit a b :=
  fun hc => by rw [hc.2] at h; exact Bool.true_eq_false.mp h

theorem noSplit_toLower {a b : Char} (h : noSplit a b) :
    noSplit (Char.toLower a) (Char.toLower b) := by
  intro hc
  obtain ⟨h1, h2⟩ := hc
  rw [isDigit_toLower] at h2
  exact h ⟨toLower_eq_underscore h1, h2⟩

theorem upper_not_digit {c : Char} (h : c.isUpper = true) : c.isDigit = false := by
  have hu : 65 ≤ c.toNat ∧ c.toNat ≤ 90 := by
    have := h
    rw [show c.isUpper = ((65 ≤ c.val) && (c.val ≤ 90)) from rfl, Bool.and_eq_true,
      decide_eq_true_iff, decide_eq_true_iff] at this
    exact this
  rw [← Bool.not_eq_true]
  intro hd
  have hr := (isDigit_iff _).mp hd
  omega

theorem upper_ne_underscore {c : Char} (h : c.isUpper = true) : ¬ c = '_' := by
  intro he
  subst he
  exact absurd h (by decide)

theorem lower_ne_underscore {c : Char} (h : c.isLower = true) : ¬ c = '_' := by
  intro he
  subst he
  exact absurd h (by decide)

theorem chain'_of_ne_underscore {l : List Char} (h : ∀ a ∈ l, ¬ a = '_') :
    List.Chain' noSplit l := by
  induction l with
  | nil => exact List.chain'_nil
  | cons a l ih =>
    cases l with
    | nil => exact List.chain'_singleton a
    | cons b l2 =>
      rw [List.chain'_cons]
      exact ⟨noSplit_of_left (h a (by simp)),
        ih (fun x hx => h x (List.mem_cons_of_mem a hx))⟩

theorem sub1Go_head? (n : Nat) : ∀ l : List Char, (sub1Go n l).head? = l.head? := by
  induction n with
  | zero => intro l; rfl
  | succ n ih =>
    intro l
    match l with
    | [] => rfl
    | [c] => rfl
    | c1 :: c2 :: rest =>
      simp only [sub1Go]
      split <;> rfl

theorem sub2Go_head? (n : Nat) : ∀ l : List Char, (sub2Go n l).head? = l.head? := by
  induction n with
  | zero => intro l; rfl
  | succ n ih =>
    intro l
    match l with
    | [] => rfl
    | [c] => rfl
    | c1 :: c2 :: rest =>
      simp only [sub2Go]
      split <;> rfl

theorem sub3Go_head? (n : Nat) : ∀ l : List Char, (sub3Go n l).head? = l.head? := by
  induction n with
  | zero => intro l; rfl
  | succ n ih =>
    intro l
    match l with
    | [] => rfl
    | [c] => rfl
    | c1 :: c2 :: rest =>
      simp only [sub3Go]
      split <;> rfl

theorem sub2Go_chain (n : Nat) :
    ∀ l : List Char, List.Chain' noSplit l → List.Chain' noSplit (sub2Go n l) := by
  induction n with
  | zero => intro l h; exact h
  | succ n ih =>
    intro l h
    match l with
    | [] => exact h
    | [c] => exact h
    | c1 :: c2 :: rest =>
      simp only [sub2Go]
      split
      case isTrue hg =>
        have hup : c2.isUpper = true := by
          simp only [Bool.and_eq_true] at hg
          tauto
        rw [List.chain'_cons]
        refine ⟨noSplit_of_right (by decide), ?_⟩
        rw [List.chain'_cons]
        refine ⟨noSplit_of_right (upper_not_digit hup), ?_⟩
        rw [List.chain'_cons']
        constructor
        · intro y hy
          rw [sub2Go_head? n rest] at hy
          have h2 : List.Chain' noSplit (c2 :: rest) := (List.chain'_cons.mp h).2
          exact (List.chain'_cons'.mp h2).1 y hy
        · exact ih rest ((List.chain'_cons.mp h).2).tail
      case isFalse hg =>
        rw [List.chain'_cons']
        constructor
        · intro y hy
          rw [sub2Go_head? n (c2 :: rest)] at hy
          simp only [List.head?_cons, Option.mem_def, Option.some.injEq] at hy
          subst hy
          exact (List.chain'_cons.mp h).1
        · exact ih (c2 :: rest) (List.chain'_cons.mp h).2

theorem sub3Go_chain (n : Nat) :
    ∀ l : List Char, List.Chain' noSplit l → List.Chain' noSplit (sub3Go n l) := by
  induction n with
  | zero => intro l h; exact h
  | succ n ih =>
    intro l h
    match l with
    | [] => exact h
    | [c] => exact h
    | c1 :: c2 :: rest =>
      simp only [sub3Go]
      split
      case isTrue hg =>
        have hnd : c2.isDigit = false := by
          simp only [Bool.and_eq_true, Bool.not_eq_true'] at hg
          tauto
        rw [List.chain'_cons]
        refine ⟨noSplit_of_right (by decide), ?_⟩
        rw [List.chain'_cons]
        refine ⟨noSplit_of_right hnd, ?_⟩
        rw [List.chain'_cons']
        constructor
        · intro y hy
          rw [sub3Go_head? n rest] at hy
          have h2 : List.Chain' noSplit (c2 :: rest) := (List.chain'_cons.mp h).2
          exact (List.chain'_cons'.mp h2).1 y hy
        · exact ih rest ((List.chain'_cons.mp h).2).tail
      case isFalse hg =>
        rw [List.chain'_cons']
        constructor
        · intro y hy
          rw [sub3Go_head? n (c2 :: rest)] at hy
          simp only [List.head?_cons, Option.mem_def, Option.some.injEq] at hy
          subst hy
          exact (List.chain'_cons.mp h).1
        · exact ih (c2 :: rest) (List.chain'_cons.mp h).2

theorem sub1Go_chain (n : Nat) :
    ∀ l : List Char, List.Chain' noSplit l → List.Chain' noSplit (sub1Go n l) := by
  induction n with
  | zero => intro l h; exact h
  | succ n ih =>
    intro l h
    match l with
    | [] => exact h
    | [c] => exact h
    | c1 :: c2 :: rest =>
      simp only [sub1Go]
      split
      case isTrue hg =>
        have hup : c2.isUpper = true := by
          simp only [Bool.and_eq_true] at hg
          tauto
        rw [List.chain'_cons]
        refine ⟨noSplit_of_right (by decide), ?_⟩
        rw [List.chain'_cons]
        refine ⟨noSplit_of_right (upper_not_digit hup), ?_⟩
        rw [List.chain'_cons']
        constructor
        · intro y hy
          exact noSplit_of_left (upper_ne_underscore hup)
        · rw [List.chain'_append]
          have hrest : List.Chain' noSplit rest := ((List.chain'_cons.mp h).2).tail
          have hsplit : rest.takeWhile Char.isLower ++ rest.dropWhile Char.isLower = rest :=
            List.takeWhile_append_dropWhile Char.isLower rest
          refine ⟨?_, ?_, ?_⟩
          · exact chain'_of_ne_underscore
              (fun a ha => lower_ne_underscore (List.mem_takeWhile_imp ha))
          · apply ih
            rw [← hsplit] at hrest
            exact (List.chain'_append.mp hrest).2.1
          · intro x hx y hy
            exact noSplit_of_left
              (lower_ne_underscore (List.mem_takeWhile_imp (List.mem_of_mem_getLast? hx)))
      case isFalse hg =>
        rw [List.chain'_cons']
        constructor
        · intro y hy
          rw [sub1Go_head? n (c2 :: rest)] at hy
          simp only [List.head?_cons, Option.mem_def, Option.some.injEq] at hy
          subst hy
          exact (List.chain'_cons.mp h).1
        · exact ih (c2 :: rest) (List.chain'_cons.mp h).2

theorem chain'_map_toLower {l : List Char} (h : List.Chain' noSplit l) :
    List.Chain' noSplit (l.map Char.toLower) := by
  rw [List.chain'_map]
  exact h.imp (fun a b hab => noSplit_toLower hab)

/-- C8: the interpreter's camel-to-snake conversion never inserts an
underscore separator immediately before a digit: if the input name has
no underscore directly preceding a digit (native driver names have
none), neither has the normalized name — in particular the trailing
digit run stays attached to the preceding token. -/
theorem c8_digits_stay_attached (s : String)
    (h : no_underscore_before_digit s.data) :
    no_underscore_before_digit (camel_to_snake_case s).data := by
  unfold no_underscore_before_digit at h
  show List.Chain' noSplit ((sub3 (sub2 (sub1 s.data))).map Char.toLower)
  exact chain'_map_toLower
    (sub3Go_chain _ _ (sub2Go_chain _ _ (sub1Go_chain _ _ h)))

/-- C8 (witness): the preservation theorem applied to the native name
`ReadBinaryI16`, whose normalized form is `read_binary_i16`. -/
theorem c8_digits_stay_attached_witness :
    no_underscore_before_digit ("ReadBinaryI16" : String).data
    ∧ no_underscore_before_digit (camel_to_snake_case "ReadBinaryI16").data
    ∧ camel_to_snake_case "ReadBinaryI16" = "read_binary_i16" :=
  ⟨by decide, c8_digits_stay_attached "ReadBinaryI16" (by decide), by decide⟩
